import Mathlib

/-!
Verification of the motor recommendation core of `uav-electronics-tool`.

The Python source (`src/uav_electronics_tool/recommend.py`) is shallowly
embedded below.  Machine floats are modelled as exact rationals (`ℚ`); the
decimal literals of the source (`9.80665`, `101.971621`, `3.7`, `1.2`,
`1e-6`, `1e-9`, the score weights) are carried over as exact rationals.
Python's `ZeroDivisionError` (raised when `mission.n_motors == 0`) is
modelled by returning `Except.error`; every other operation of the engine is
total on the rationals.

The final `df.sort_values("score", ascending=True)` of the source uses the
pandas default sorting kind (`quicksort`, i.e. numpy introsort), which sorts
ascending but is not a stable sort.  The embedding below models the sort as
an ascending insertion sort keyed on `score`; this fixes one particular tie
order (the stable one) and is faithful to the source on every catalog whose
surviving candidates have pairwise distinct scores.  The stability question
itself is treated separately (see the seventeen-way-tie theorem).
-/

set_option maxRecDepth 100000

namespace UAV

/-- `Mission` dataclass of `recommend.py` (lines 13–20).  `n_motors` and
`battery_cells_s` are Python ints, the rest Python floats; `voltage_nom_v`
is `Optional[float]`. -/
structure Mission where
  n_motors : ℤ
  mass_kg : ℚ
  thrust_to_weight : ℚ
  battery_cells_s : ℤ
  voltage_nom_v : Option ℚ
deriving DecidableEq

/-- `nominal_voltage_from_s` (recommend.py lines 23–25):
`float(cells_s) * 3.7`. -/
def nominal_voltage_from_s (cells_s : ℤ) : ℚ :=
  (cells_s : ℚ) * (37 / 10)

/-- Line 70 of recommend.py:
`v_nom = mission.voltage_nom_v or nominal_voltage_from_s(mission.battery_cells_s)`.
Python's `or` falls through exactly when `voltage_nom_v` is `None` or the
float `0.0` (falsy); any other value, including a negative one, is truthy
and is returned unchanged. -/
def effective_voltage (m : Mission) : ℚ :=
  match m.voltage_nom_v with
  | none => nominal_voltage_from_s m.battery_cells_s
  | some v => if v = 0 then nominal_voltage_from_s m.battery_cells_s else v

/-- `G = 9.80665` (recommend.py line 10). -/
def G : ℚ := 980665 / 100000

/-- Line 73: `total_thrust_n = mission.thrust_to_weight * mission.mass_kg * G`. -/
def total_thrust_n (m : Mission) : ℚ :=
  m.thrust_to_weight * m.mass_kg * G

/-- Line 74: `thrust_per_motor_n = total_thrust_n / mission.n_motors`.
(The caller `recommend_motors` errors out before using this when
`n_motors = 0`, mirroring Python's `ZeroDivisionError`.) -/
def thrust_per_motor_n (m : Mission) : ℚ :=
  total_thrust_n m / (m.n_motors : ℚ)

/-- Line 77: `thrust_per_motor_gf = thrust_per_motor_n * 101.971621`. -/
def thrust_per_motor_gf_est (m : Mission) : ℚ :=
  thrust_per_motor_n m * (101971621 / 1000000)

/-- Lines 80–81: `hover_power_w_est = thrust_per_motor_gf / 7.0`. -/
def hover_power_w_est (m : Mission) : ℚ :=
  thrust_per_motor_gf_est m / 7

/-- Lines 84–85: `peak_power_w_est = hover_power_w_est * 1.6`. -/
def peak_power_w_est (m : Mission) : ℚ :=
  hover_power_w_est m * (8 / 5)

/-- Line 88: `peak_current_a_est = peak_power_w_est / max(v_nom, 1e-6)`. -/
def peak_current_a_est (m : Mission) : ℚ :=
  peak_power_w_est m / max (effective_voltage m) (1 / 1000000)

/-- One row of the validated motors table (columns of `motors.csv` after the
loader's numeric coercion succeeded; all numeric cells finite). -/
structure MotorSpec where
  id : String
  manufacturer : String
  model : String
  kv : ℚ
  max_current_a : ℚ
  max_power_w : ℚ
  voltage_min_v : ℚ
  voltage_max_v : ℚ
  mass_g : ℚ
  price_usd : ℚ
  url : String
deriving DecidableEq

/-- Line 96: `df["power_margin"] = df["max_power_w"] / peak_power_w_est`. -/
def power_margin (m : Mission) (s : MotorSpec) : ℚ :=
  s.max_power_w / peak_power_w_est m

/-- Line 97: `df["current_margin"] = df["max_current_a"] / peak_current_a_est`. -/
def current_margin (m : Mission) (s : MotorSpec) : ℚ :=
  s.max_current_a / peak_current_a_est m

/-- Line 93 filter predicate:
`(df["voltage_min_v"] <= v_nom) & (v_nom <= df["voltage_max_v"])`. -/
def voltage_ok (m : Mission) (s : MotorSpec) : Bool :=
  decide (s.voltage_min_v ≤ effective_voltage m) &&
    decide (effective_voltage m ≤ s.voltage_max_v)

/-- Line 100 filter predicate, with the threshold (`1.2` in the source) kept
as a parameter `t` so that its monotonicity can be stated:
`(df["power_margin"] >= t) & (df["current_margin"] >= t)`. -/
def margin_ok (t : ℚ) (m : Mission) (s : MotorSpec) : Bool :=
  decide (t ≤ power_margin m s) && decide (t ≤ current_margin m s)

/-- The rows surviving the voltage filter (line 93) followed by the margin
filter at threshold `t` (line 100; the source hard-codes `t = 1.2`). -/
def survivors (m : Mission) (cat : List MotorSpec) (t : ℚ) : List MotorSpec :=
  (cat.filter (voltage_ok m)).filter (margin_ok t m)

/-- Minimum of a list of rationals (`Series.min`); the `[]` case is never
reached by the engine (scoring maps over the same list the min is taken of). -/
def qmin : List ℚ → ℚ
  | [] => 0
  | x :: xs => xs.foldl min x

/-- Maximum of a list of rationals (`Series.max`). -/
def qmax : List ℚ → ℚ
  | [] => 0
  | x :: xs => xs.foldl max x

/-- A surviving catalog row together with the computed columns that
`recommend_motors` adds (lines 96–115 of recommend.py). -/
structure RankedCandidate where
  spec : MotorSpec
  power_margin : ℚ
  current_margin : ℚ
  mass_score : ℚ
  price_score : ℚ
  margin_score : ℚ
  score : ℚ
  v_nom_used : ℚ
  thrust_per_motor_gf : ℚ
  hover_power_w_est : ℚ
  peak_power_w_est : ℚ
  peak_current_a_est : ℚ
deriving DecidableEq

/-- Lines 96–115: the computed columns for one survivor, given the min/max
of `mass_g` and `price_usd` over the surviving set. -/
def mk_ranked (m : Mission) (minM maxM minP maxP : ℚ) (s : MotorSpec) : RankedCandidate :=
  { spec := s
    power_margin := power_margin m s
    current_margin := current_margin m s
    mass_score := (s.mass_g - minM) / max (maxM - minM) (1 / 1000000000)
    price_score := (s.price_usd - minP) / max (maxP - minP) (1 / 1000000000)
    margin_score := (1 / 2) * power_margin m s + (1 / 2) * current_margin m s
    score := (2 / 5) * ((s.mass_g - minM) / max (maxM - minM) (1 / 1000000000))
      + (3 / 10) * ((s.price_usd - minP) / max (maxP - minP) (1 / 1000000000))
      - (3 / 10) * ((1 / 2) * power_margin m s + (1 / 2) * current_margin m s)
    v_nom_used := effective_voltage m
    thrust_per_motor_gf := thrust_per_motor_gf_est m
    hover_power_w_est := hover_power_w_est m
    peak_power_w_est := peak_power_w_est m
    peak_current_a_est := peak_current_a_est m }

/-- The `mass_g` column of the surviving frame (threshold `1.2 = 6/5`). -/
def surv_masses (m : Mission) (cat : List MotorSpec) : List ℚ :=
  (survivors m cat (6 / 5)).map MotorSpec.mass_g

/-- The `price_usd` column of the surviving frame. -/
def surv_prices (m : Mission) (cat : List MotorSpec) : List ℚ :=
  (survivors m cat (6 / 5)).map MotorSpec.price_usd

/-- Lines 93–115: filtering and scoring.  The normalization ranges are taken
over the surviving set only (the source computes them on the filtered frame). -/
def scored_candidates (m : Mission) (cat : List MotorSpec) : List RankedCandidate :=
  (survivors m cat (6 / 5)).map
    (mk_ranked m (qmin (surv_masses m cat)) (qmax (surv_masses m cat))
      (qmin (surv_prices m cat)) (qmax (surv_prices m cat)))

/-- Ordering key of line 119: ascending by `score`. -/
def scoreLE (a b : RankedCandidate) : Prop := a.score ≤ b.score

instance : DecidableRel scoreLE :=
  fun a b => inferInstanceAs (Decidable (a.score ≤ b.score))

/-- Line 119: `df.sort_values("score", ascending=True)`, modelled as a stable
ascending insertion sort on `score` (see the header note on tie order). -/
def sort_by_score (l : List RankedCandidate) : List RankedCandidate :=
  l.insertionSort scoreLE

/-- Ordered insertion on bare rationals; the shadow of `sort_by_score` on
the `score` column, used to show the sorted score column depends only on
the unsorted score column. -/
def insertQ (q : ℚ) : List ℚ → List ℚ
  | [] => [q]
  | p :: ps => if q ≤ p then q :: p :: ps else p :: insertQ q ps

/-- `recommend_motors` (recommend.py lines 69–120).  The only runtime error
the source can raise is the `ZeroDivisionError` of line 74 when
`mission.n_motors == 0`; there is no validation of the Mission fields. -/
def recommend_motors (m : Mission) (cat : List MotorSpec) : Except String (List RankedCandidate) :=
  if m.n_motors = 0 then Except.error "ZeroDivisionError: float division by zero"
  else Except.ok (sort_by_score (scored_candidates m cat))

/-- The Mission invariants of the spec's data model (section 3): positive
count, mass, ratio and cell count, and a positive override when supplied
(`getD 1` makes the absent case vacuously positive). -/
def valid_mission (m : Mission) : Prop :=
  0 < m.n_motors ∧ 0 < m.mass_kg ∧ 0 < m.thrust_to_weight ∧
    0 < m.battery_cells_s ∧ 0 < m.voltage_nom_v.getD 1

instance (m : Mission) : Decidable (valid_mission m) :=
  inferInstanceAs (Decidable (_ ∧ _ ∧ _ ∧ _ ∧ _))

/-- A numeric cell of `motors.csv` after `pd.read_csv` plus
`pd.to_numeric(..., errors="coerce")` (recommend.py lines 57–59): either a
finite number, an infinity (the parsers accept `inf`/`-inf`/`Infinity`
spellings and keep them), or NaN (the coercion result for a cell that does
not parse as a number). -/
inductive CellVal where
  | nan : CellVal
  | posInf : CellVal
  | negInf : CellVal
  | num : ℚ → CellVal
deriving DecidableEq

/-- `pd.isna` on a coerced cell: true exactly for NaN. -/
def CellVal.isNan : CellVal → Bool
  | nan => true
  | _ => false

/-- Whether the coerced cell holds a finite number. -/
def CellVal.isFinite : CellVal → Bool
  | num _ => true
  | _ => false

/-- One row of `motors.csv` as seen after the numeric coercion of
recommend.py lines 48–59 (all eleven required columns present — the earlier
missing-column check already passed). -/
structure RawMotorRow where
  id : String
  manufacturer : String
  model : String
  kv : CellVal
  max_current_a : CellVal
  max_power_w : CellVal
  voltage_min_v : CellVal
  voltage_max_v : CellVal
  mass_g : CellVal
  price_usd : CellVal
  url : String
deriving DecidableEq

/-- Line 61: `df[numeric_cols].isna().any(axis=1)` for one row — some
required numeric cell failed to coerce. -/
def row_has_nan (r : RawMotorRow) : Bool :=
  r.kv.isNan || r.max_current_a.isNan || r.max_power_w.isNan ||
    r.voltage_min_v.isNan || r.voltage_max_v.isNan || r.mass_g.isNan ||
    r.price_usd.isNan

/-- Line 63: `df.loc[bad, "id"].tolist()` — the identifiers of every row
with an unparseable numeric cell, in row order. -/
def bad_row_ids (rows : List RawMotorRow) : List String :=
  (rows.filter row_has_nan).map RawMotorRow.id

/-- `load_motors_csv` (recommend.py lines 27–66) from the numeric-coercion
step on: if any row has a NaN numeric cell, raise `ValueError` listing every
such row's id (modelled by `Except.error`); otherwise return the whole
frame unchanged. -/
def load_motors_csv (rows : List RawMotorRow) : Except (List String) (List RawMotorRow) :=
  if rows.any row_has_nan then Except.error (bad_row_ids rows)
  else Except.ok rows

/-- The uniform positive-affine rescaling of the `price_usd` column used to
state the normalization-invariance property. -/
def rescale_price (a b : ℚ) (s : MotorSpec) : MotorSpec :=
  { s with price_usd := a * s.price_usd + b }

/-- The min-max range of `price_usd` over the surviving frame — the quantity
the `1e-9` guard of line 105 compares against. -/
def price_range (m : Mission) (cat : List MotorSpec) : ℚ :=
  qmax (surv_prices m cat) - qmin (surv_prices m cat)

/-- Scenario A mission of the spec (the defaults of the `Mission` dataclass). -/
def default_mission : Mission := ⟨4, 2, 2, 6, none⟩

/-- A motor that passes both filters for `default_mission`
(`22.2 ∈ [10, 30]`, power margin `1000/228.5 ≈ 4.4`, current margin
`40/10.3 ≈ 3.9`). -/
def motor_a : MotorSpec := ⟨"m1", "acme", "alpha", 900, 40, 1000, 10, 30, 100, 50, "u1"⟩

/-- A motor whose `voltage_max_v = 20` is below the effective voltage
`22.2` of `default_mission` (Scenario B of the spec). -/
def motor_low_volt : MotorSpec := ⟨"m2", "acme", "beta", 900, 40, 1000, 10, 20, 100, 50, "u2"⟩

/-- A mission violating two data-model invariants at once:
`mass_kg = -2 < 0` and `thrust_to_weight = -2 < 0`.  Their product is
positive, so the downstream arithmetic coincides with Scenario A. -/
def invalid_mission_example : Mission := ⟨4, -2, -2, 6, none⟩

/-- A mission whose supplied override voltage is negative (violating the
invariant that a supplied override is positive). -/
def neg_override_mission : Mission := ⟨4, 2, 2, 6, some (-1)⟩

/-- A mission whose override voltage is supplied as exactly `0`. -/
def zero_override_mission : Mission := ⟨4, 2, 2, 6, some 0⟩

/-- Seventeen identical copies of `motor_a`: all survive filtering for
`default_mission` and all get exactly the same `score`. -/
def tie_catalog : List MotorSpec := List.replicate 17 motor_a

/-- `motor_a` with price `0`. -/
def motor_price_zero : MotorSpec := { motor_a with id := "p0", price_usd := 0 }

/-- `motor_a` with price `2e-9` — together with `motor_price_zero` the
surviving price range is `2e-9`, just above the `1e-9` guard. -/
def motor_price_tiny : MotorSpec := { motor_a with id := "p1", price_usd := 2 / 1000000000 }

/-- Two-survivor catalog whose price range sits just above the `1e-9`
normalization guard, so that shrinking prices by `a = 1/10` pushes the range
below the guard. -/
def tiny_price_catalog : List MotorSpec := [motor_price_zero, motor_price_tiny]

/-- `motor_a` at price `10`. -/
def motor_price_ten : MotorSpec := { motor_a with id := "w1", price_usd := 10 }

/-- `motor_a` at price `20`. -/
def motor_price_twenty : MotorSpec := { motor_a with id := "w2", price_usd := 20 }

/-- Two-survivor catalog with an ordinary price range of `10`. -/
def plain_price_catalog : List MotorSpec := [motor_price_ten, motor_price_twenty]

/-- A raw row all of whose numeric cells parsed to finite values. -/
def raw_row_good : RawMotorRow :=
  ⟨"r1", "acme", "alpha", .num 900, .num 40, .num 1000, .num 10, .num 30, .num 100, .num 50, "u1"⟩

/-- A raw row whose `kv` cell parsed to `inf` — not finite, yet not NaN, so
the loader's `isna` check does not flag it. -/
def raw_row_inf : RawMotorRow :=
  ⟨"r2", "acme", "beta", .posInf, .num 40, .num 1000, .num 10, .num 30, .num 100, .num 50, "u2"⟩

/-- A raw row whose `mass_g` cell failed to parse (coerced to NaN). -/
def raw_row_bad_mass : RawMotorRow :=
  ⟨"r3", "acme", "gamma", .num 900, .num 40, .num 1000, .num 10, .num 30, .nan, .num 50, "u3"⟩

/-- The single ranked candidate the engine produces for `default_mission`
and the one-motor catalog `[motor_a]`. -/
def demo_candidate : RankedCandidate :=
  mk_ranked default_mission (qmin (surv_masses default_mission [motor_a]))
    (qmax (surv_masses default_mission [motor_a]))
    (qmin (surv_prices default_mission [motor_a]))
    (qmax (surv_prices default_mission [motor_a])) motor_a

/-- A raw row whose `kv` cell failed to parse (coerced to NaN). -/
def raw_row_bad_kv : RawMotorRow :=
  ⟨"r4", "acme", "delta", .nan, .num 40, .num 1000, .num 10, .num 30, .num 100, .num 50, "u4"⟩

/-- Membership in the two-stage filter unfolds to the conj; of the voltage
window and the two margin thresholds. -/
theorem mem_survivors {m : Mission} {cat : List MotorSpec} {t : ℚ} {s : MotorSpec} :
    s ∈ survivors m cat t ↔
      s ∈ cat ∧ (s.voltage_min_v ≤ effective_voltage m ∧ effective_voltage m ≤ s.voltage_max_v) ∧
        t ≤ power_margin m s ∧ t ≤ current_margin m s := by
  simp only [survivors, List.mem_filter, voltage_ok, margin_ok, Bool.and_eq_true,
    decide_eq_true_eq]
  tauto

/-- Sorting by score does not change membership. -/
theorem mem_sort_by_score {l : List RankedCandidate} {rc : RankedCandidate} :
    rc ∈ sort_by_score l ↔ rc ∈ l :=
  List.mem_insertionSort scoreLE

/-- When `n_motors ≠ 0` the engine takes the non-error branch. -/
theorem recommend_motors_eq_ok {m : Mission} {cat : List MotorSpec} (h : m.n_motors ≠ 0) :
    recommend_motors m cat = Except.ok (sort_by_score (scored_candidates m cat)) := by
  simp [recommend_motors, h]

/-- C1 counterexample: `invalid_mission_example` violates two Mission
invariants (negative mass, negative thrust-to-weight), yet the engine
raises no error and returns a non-empty ranked result. -/
theorem C1_counterexample :
    ¬ valid_mission invalid_mission_example ∧
      (recommend_motors invalid_mission_example [motor_a]).toOption.map List.length = some 1 := by
  constructor
  · norm_num [valid_mission, invalid_mission_example]
  · norm_num [recommend_motors, invalid_mission_example, motor_a, sort_by_score,
      scored_candidates, survivors, surv_masses, surv_prices, qmin, qmax, mk_ranked,
      voltage_ok, margin_ok, power_margin, current_margin, peak_current_a_est,
      peak_power_w_est, hover_power_w_est, thrust_per_motor_gf_est, thrust_per_motor_n,
      total_thrust_n, G, effective_voltage, nominal_voltage_from_s,
      List.filter, List.insertionSort, List.orderedInsert, Except.toOption]

/-- C1 (amended): the engine contains no validation of the Mission
invariants.  For every Mission whose `n_motors` is nonzero — including
every Mission violating the positivity invariants — and every catalog, it
silently runs the normal pipeline and returns a ranked result instead of
raising an `InvalidMission` error. -/
theorem C1_no_mission_validation (m : Mission) (cat : List MotorSpec)
    (h : m.n_motors ≠ 0) :
    ∃ out, recommend_motors m cat = Except.ok out :=
  ⟨_, recommend_motors_eq_ok h⟩

/-- Witness for C1: the invariant-violating mission is processed without
error. -/
theorem C1_no_mission_validation_witness :
    ∃ out, recommend_motors invalid_mission_example [motor_a] = Except.ok out :=
  C1_no_mission_validation invalid_mission_example [motor_a] (by decide)

/-- C5 counterexample: for a supplied negative override (`-1`), the claim
says the engine falls back to `3.7 × batteryCellsS = 22.2`; the code's
truthiness test keeps the negative value instead. -/
theorem C5_counterexample :
    effective_voltage neg_override_mission = -1 ∧
      effective_voltage neg_override_mission ≠
        (37 / 10) * (neg_override_mission.battery_cells_s : ℚ) := by
  constructor
  · norm_num [effective_voltage, neg_override_mission]
  · norm_num [effective_voltage, neg_override_mission]

/-- C5 (amended): `effective_voltage` returns the supplied override
whenever it is nonzero — positive or negative — and falls back to
`3.7 × batteryCellsS` exactly when the override is absent or exactly zero. -/
theorem C5_effective_voltage_truthiness (m : Mission) :
    (m.voltage_nom_v = none →
      effective_voltage m = (37 / 10) * (m.battery_cells_s : ℚ)) ∧
    (m.voltage_nom_v = some 0 →
      effective_voltage m = (37 / 10) * (m.battery_cells_s : ℚ)) ∧
    (∀ v : ℚ, m.voltage_nom_v = some v → v ≠ 0 → effective_voltage m = v) := by
  refine ⟨fun h => ?_, fun h => ?_, fun v hv hne => ?_⟩
  · simp [effective_voltage, h, nominal_voltage_from_s, mul_comm]
  · simp [effective_voltage, h, nominal_voltage_from_s, mul_comm]
  · simp [effective_voltage, hv, hne]

/-- Witness for C5 (amended): the default mission has no override and gets
the derived voltage. -/
theorem C5_effective_voltage_truthiness_witness :
    effective_voltage default_mission = (37 / 10) * ((default_mission.battery_cells_s : ℤ) : ℚ) :=
  (C5_effective_voltage_truthiness default_mission).1 rfl

/-- C10: an override supplied as exactly `0` is treated as absent: no error
is raised (given the motor count is nonzero, the only error source), the
derived voltage `3.7 × batteryCellsS` is used, and every output row records
that derived voltage in `v_nom_used`. -/
theorem C10_zero_override_uses_derived (m : Mission) (cat : List MotorSpec)
    (h0 : m.voltage_nom_v = some 0) (hn : m.n_motors ≠ 0) :
    effective_voltage m = nominal_voltage_from_s m.battery_cells_s ∧
      ∃ out, recommend_motors m cat = Except.ok out ∧
        ∀ rc ∈ out, rc.v_nom_used = nominal_voltage_from_s m.battery_cells_s := by
  have hv : effective_voltage m = nominal_voltage_from_s m.battery_cells_s := by
    simp [effective_voltage, h0]
  refine ⟨hv, _, recommend_motors_eq_ok hn, fun rc hrc => ?_⟩
  rw [mem_sort_by_score] at hrc
  simp only [scored_candidates, List.mem_map] at hrc
  obtain ⟨s, _, rfl⟩ := hrc
  simpa [mk_ranked] using hv

/-- Witness for C10 at a concrete zero-override mission. -/
theorem C10_zero_override_uses_derived_witness :
    effective_voltage zero_override_mission =
        nominal_voltage_from_s zero_override_mission.battery_cells_s ∧
      ∃ out, recommend_motors zero_override_mission [motor_a] = Except.ok out ∧
        ∀ rc ∈ out, rc.v_nom_used = nominal_voltage_from_s zero_override_mission.battery_cells_s :=
  C10_zero_override_uses_derived zero_override_mission [motor_a] rfl (by decide)

/-- C6: when the two filter stages eliminate every candidate, the engine
returns `Except.ok []` — the distinguished empty result, not an error. -/
theorem C6_empty_survivors_ok_empty (m : Mission) (cat : List MotorSpec)
    (hm : valid_mission m) (h : survivors m cat (6 / 5) = []) :
    recommend_motors m cat = Except.ok [] := by
  rw [recommend_motors_eq_ok hm.1.ne']
  simp [scored_candidates, h, sort_by_score, List.insertionSort]

/-- Witness for C6: Scenario B — a one-motor catalog whose voltage window
tops out below the mission's effective voltage yields the empty result. -/
theorem C6_empty_survivors_ok_empty_witness :
    recommend_motors default_mission [motor_low_volt] = Except.ok [] :=
  C6_empty_survivors_ok_empty default_mission [motor_low_volt]
    (by norm_num [valid_mission, default_mission])
    (by norm_num [survivors, voltage_ok, margin_ok, effective_voltage,
      nominal_voltage_from_s, default_mission, motor_low_volt, List.filter])

/-- C7 counterexample: a row whose `kv` cell parsed to `inf` is not finite,
yet the loader accepts the catalog (the `isna` check only flags NaN). -/
theorem C7_counterexample :
    raw_row_inf.kv.isFinite = false ∧
      load_motors_csv [raw_row_inf] = Except.ok [raw_row_inf] :=
  ⟨rfl, rfl⟩

/-- C7 (amended): the loader fails atomically exactly when some required
numeric cell coerced to NaN, and the single error enumerates the
identifiers of every offending row (not just the first); otherwise it
returns all rows unchanged — no row is silently dropped.  (Cells parsing to
infinities are accepted, so "unparseable" — NaN after coercion — is the
trigger, not "non-finite".) -/
theorem C7_loader_fails_atomically (rows : List RawMotorRow) :
    (bad_row_ids rows = [] → load_motors_csv rows = Except.ok rows) ∧
    (bad_row_ids rows ≠ [] → load_motors_csv rows = Except.error (bad_row_ids rows)) := by
  have key : rows.any row_has_nan = true ↔ bad_row_ids rows ≠ [] := by
    simp [bad_row_ids, List.any_eq_true, List.filter_eq_nil_iff]
  constructor
  · intro h
    have hb : rows.any row_has_nan = false := by
      cases hba : rows.any row_has_nan
      · rfl
      · exact absurd (key.mp hba) (by simp [h])
    simp [load_motors_csv, hb]
  · intro h
    simp [load_motors_csv, key.mpr h]

/-- Witness for C7: two offending rows out of three; both ids are reported,
in row order. -/
theorem C7_loader_fails_atomically_witness :
    load_motors_csv [raw_row_bad_kv, raw_row_good, raw_row_bad_mass] =
      Except.error ["r4", "r3"] :=
  (C7_loader_fails_atomically [raw_row_bad_kv, raw_row_good, raw_row_bad_mass]).2 (by decide)

/-- C8: the margin filter is monotone in its threshold: at a higher
threshold the surviving rows are a subset (and no more numerous) of those
at a lower threshold; in particular lowering `1.2` to `0` can only enlarge
the surviving set. -/
theorem C8_margin_filter_monotone (m : Mission) (cat : List MotorSpec)
    (_hm : valid_mission m) (t t' : ℚ) (h : t ≤ t') :
    survivors m cat t' ⊆ survivors m cat t ∧
      (survivors m cat t').length ≤ (survivors m cat t).length := by
  have hsub : List.Sublist (survivors m cat t') (survivors m cat t) := by
    apply List.monotone_filter_right
    intro s hs
    simp only [margin_ok, Bool.and_eq_true, decide_eq_true_eq] at hs ⊢
    exact ⟨le_trans h hs.1, le_trans h hs.2⟩
  exact ⟨hsub.subset, hsub.length_le⟩

/-- Witness for C8 at the source's threshold `1.2` against threshold `0`. -/
theorem C8_margin_filter_monotone_witness :
    survivors default_mission [motor_a] (6 / 5) ⊆ survivors default_mission [motor_a] 0 ∧
      (survivors default_mission [motor_a] (6 / 5)).length ≤
        (survivors default_mission [motor_a] 0).length :=
  C8_margin_filter_monotone default_mission [motor_a]
    (by norm_num [valid_mission, default_mission]) 0 (6 / 5) (by norm_num)

/-- C3: a catalog entry appears in the engine's output exactly when it lies
in the inclusive voltage window and clears both 20%-margin thresholds
(`1.2 = 6/5`). -/
theorem C3_filter_characterization (m : Mission) (cat : List MotorSpec)
    (out : List RankedCandidate) (hm : valid_mission m)
    (hout : recommend_motors m cat = Except.ok out) (s : MotorSpec) :
    (∃ rc ∈ out, rc.spec = s) ↔
      s ∈ cat ∧
        (s.voltage_min_v ≤ effective_voltage m ∧ effective_voltage m ≤ s.voltage_max_v) ∧
        (6 / 5 : ℚ) ≤ s.max_power_w / peak_power_w_est m ∧
        (6 / 5 : ℚ) ≤ s.max_current_a / peak_current_a_est m := by
  rw [recommend_motors_eq_ok hm.1.ne'] at hout
  injection hout with hout
  subst hout
  constructor
  · rintro ⟨rc, hrc, rfl⟩
    rw [mem_sort_by_score] at hrc
    simp only [scored_candidates, List.mem_map] at hrc
    obtain ⟨x, hx, rfl⟩ := hrc
    have hmem := mem_survivors.mp hx
    simpa [mk_ranked, power_margin, current_margin] using hmem
  · intro hs
    refine ⟨mk_ranked m (qmin (surv_masses m cat)) (qmax (surv_masses m cat))
      (qmin (surv_prices m cat)) (qmax (surv_prices m cat)) s, ?_, rfl⟩
    rw [mem_sort_by_score]
    simp only [scored_candidates, List.mem_map]
    refine ⟨s, mem_survivors.mpr ?_, rfl⟩
    simpa [power_margin, current_margin] using hs

/-- Witness for C3 at the default mission and a passing one-motor catalog. -/
theorem C3_filter_characterization_witness :
    (∃ rc ∈ (recommend_motors default_mission [motor_a]).toOption.getD [],
        rc.spec = motor_a) ↔
      motor_a ∈ [motor_a] ∧
        (motor_a.voltage_min_v ≤ effective_voltage default_mission ∧
          effective_voltage default_mission ≤ motor_a.voltage_max_v) ∧
        (6 / 5 : ℚ) ≤ motor_a.max_power_w / peak_power_w_est default_mission ∧
        (6 / 5 : ℚ) ≤ motor_a.max_current_a / peak_current_a_est default_mission :=
  C3_filter_characterization default_mission [motor_a] _
    (by norm_num [valid_mission, default_mission]) rfl motor_a

/-- C4: every output row carries exactly the documented derived columns —
margins as capability over estimated demand, min-max normalized mass and
price scores with ranges over the surviving set only and the `1e-9` guard,
the unnormalized mean margin score, and the `0.4/0.3/−0.3` weighted
composite. -/
theorem C4_scoring_formulas (m : Mission) (cat : List MotorSpec)
    (out : List RankedCandidate) (hout : recommend_motors m cat = Except.ok out)
    (rc : RankedCandidate) (hrc : rc ∈ out) :
      rc.power_margin = rc.spec.max_power_w / peak_power_w_est m ∧
      rc.current_margin = rc.spec.max_current_a / peak_current_a_est m ∧
      rc.mass_score = (rc.spec.mass_g - qmin (surv_masses m cat)) /
        max (qmax (surv_masses m cat) - qmin (surv_masses m cat)) (1 / 1000000000) ∧
      rc.price_score = (rc.spec.price_usd - qmin (surv_prices m cat)) /
        max (qmax (surv_prices m cat) - qmin (surv_prices m cat)) (1 / 1000000000) ∧
      rc.margin_score = (1 / 2) * rc.power_margin + (1 / 2) * rc.current_margin ∧
      rc.score = (2 / 5) * rc.mass_score + (3 / 10) * rc.price_score
        - (3 / 10) * rc.margin_score := by
  by_cases hn : m.n_motors = 0
  · simp [recommend_motors, hn] at hout
  · rw [recommend_motors_eq_ok hn] at hout
    injection hout with hout
    subst hout
    rw [mem_sort_by_score] at hrc
    simp only [scored_candidates, List.mem_map] at hrc
    obtain ⟨x, hx, rfl⟩ := hrc
    exact ⟨rfl, rfl, rfl, rfl, rfl, rfl⟩

/-- Witness for C4 on a concrete non-empty output. -/
theorem C4_scoring_formulas_witness :
    demo_candidate.power_margin
        = demo_candidate.spec.max_power_w / peak_power_w_est default_mission ∧
      demo_candidate.current_margin
        = demo_candidate.spec.max_current_a / peak_current_a_est default_mission ∧
      demo_candidate.mass_score
        = (demo_candidate.spec.mass_g - qmin (surv_masses default_mission [motor_a])) /
          max (qmax (surv_masses default_mission [motor_a])
            - qmin (surv_masses default_mission [motor_a])) (1 / 1000000000) ∧
      demo_candidate.price_score
        = (demo_candidate.spec.price_usd - qmin (surv_prices default_mission [motor_a])) /
          max (qmax (surv_prices default_mission [motor_a])
            - qmin (surv_prices default_mission [motor_a])) (1 / 1000000000) ∧
      demo_candidate.margin_score
        = (1 / 2) * demo_candidate.power_margin
          + (1 / 2) * demo_candidate.current_margin ∧
      demo_candidate.score
        = (2 / 5) * demo_candidate.mass_score + (3 / 10) * demo_candidate.price_score
          - (3 / 10) * demo_candidate.margin_score :=
  C4_scoring_formulas default_mission [motor_a] _ rfl demo_candidate
    (by norm_num [recommend_motors, sort_by_score, scored_candidates, survivors,
      demo_candidate, voltage_ok, margin_ok, power_margin, current_margin,
      peak_current_a_est, peak_power_w_est, hover_power_w_est,
      thrust_per_motor_gf_est, thrust_per_motor_n, total_thrust_n, G,
      effective_voltage, nominal_voltage_from_s, default_mission, motor_a,
      List.filter, List.insertionSort, List.orderedInsert, Except.toOption])

/-- Unfolding of `sort_by_score` on a cons cell. -/
theorem sort_by_score_cons (x : RankedCandidate) (l : List RankedCandidate) :
    sort_by_score (x :: l) = List.orderedInsert scoreLE x (sort_by_score l) := rfl

/-- The score column of an ordered insertion is the ordered insertion of
the score into the score column. -/
theorem map_score_orderedInsert (x : RankedCandidate) (l : List RankedCandidate) :
    (List.orderedInsert scoreLE x l).map RankedCandidate.score
      = insertQ x.score (l.map RankedCandidate.score) := by
  induction l with
  | nil => rfl
  | cons y l ih =>
    by_cases h : x.score ≤ y.score
    · simp [List.orderedInsert, insertQ, scoreLE, h]
    · simp [List.orderedInsert, insertQ, scoreLE, h, ih]

/-- Two candidate lists with the same score column sort to the same score
column: the sorted score column is a function of the unsorted one. -/
theorem map_score_sort_congr : ∀ (l₁ l₂ : List RankedCandidate),
    l₁.map RankedCandidate.score = l₂.map RankedCandidate.score →
      (sort_by_score l₁).map RankedCandidate.score
        = (sort_by_score l₂).map RankedCandidate.score
  | [], [], _ => rfl
  | [], _ :: _, h => by simp at h
  | _ :: _, [], h => by simp at h
  | x :: l₁, y :: l₂, h => by
    simp only [List.map_cons, List.cons.injEq] at h
    rw [sort_by_score_cons, sort_by_score_cons, map_score_orderedInsert,
      map_score_orderedInsert, h.1, map_score_sort_congr l₁ l₂ h.2]

/-- A positive-affine map commutes with binary `min`. -/
theorem affine_min (a b x y : ℚ) (ha : 0 ≤ a) :
    min (a * x + b) (a * y + b) = a * min x y + b := by
  rcases le_total x y with h | h
  · rw [min_eq_left (add_le_add_right (mul_le_mul_of_nonneg_left h ha) b), min_eq_left h]
  · rw [min_eq_right (add_le_add_right (mul_le_mul_of_nonneg_left h ha) b), min_eq_right h]

/-- A positive-affine map commutes with binary `max`. -/
theorem affine_max (a b x y : ℚ) (ha : 0 ≤ a) :
    max (a * x + b) (a * y + b) = a * max x y + b := by
  rcases le_total x y with h | h
  · rw [max_eq_right (add_le_add_right (mul_le_mul_of_nonneg_left h ha) b), max_eq_right h]
  · rw [max_eq_left (add_le_add_right (mul_le_mul_of_nonneg_left h ha) b), max_eq_left h]

/-- A positive-affine map commutes with a running `min` fold. -/
theorem foldl_min_map_affine (a b : ℚ) (ha : 0 ≤ a) :
    ∀ (l : List ℚ) (x : ℚ),
      (l.map fun p => a * p + b).foldl min (a * x + b) = a * l.foldl min x + b
  | [], _ => rfl
  | y :: l, x => by
    simp only [List.map_cons, List.foldl_cons]
    rw [affine_min a b x y ha, foldl_min_map_affine a b ha l (min x y)]

/-- A positive-affine map commutes with a running `max` fold. -/
theorem foldl_max_map_affine (a b : ℚ) (ha : 0 ≤ a) :
    ∀ (l : List ℚ) (x : ℚ),
      (l.map fun p => a * p + b).foldl max (a * x + b) = a * l.foldl max x + b
  | [], _ => rfl
  | y :: l, x => by
    simp only [List.map_cons, List.foldl_cons]
    rw [affine_max a b x y ha, foldl_max_map_affine a b ha l (max x y)]

/-- `qmin` of a positive-affine image of a nonempty list. -/
theorem qmin_map_affine (a b : ℚ) (ha : 0 ≤ a) (l : List ℚ) (hl : l ≠ []) :
    qmin (l.map fun p => a * p + b) = a * qmin l + b := by
  cases l with
  | nil => exact absurd rfl hl
  | cons x xs =>
    simp only [List.map_cons, qmin]
    exact foldl_min_map_affine a b ha xs x

/-- `qmax` of a positive-affine image of a nonempty list. -/
theorem qmax_map_affine (a b : ℚ) (ha : 0 ≤ a) (l : List ℚ) (hl : l ≠ []) :
    qmax (l.map fun p => a * p + b) = a * qmax l + b := by
  cases l with
  | nil => exact absurd rfl hl
  | cons x xs =>
    simp only [List.map_cons, qmax]
    exact foldl_max_map_affine a b ha xs x

/-- A `min` fold is bounded by its initial value. -/
theorem foldl_min_le_init : ∀ (l : List ℚ) (x : ℚ), l.foldl min x ≤ x
  | [], x => le_refl x
  | y :: l, x => le_trans (foldl_min_le_init l (min x y)) (min_le_left x y)

/-- A `min` fold is bounded by every list element. -/
theorem foldl_min_le_mem : ∀ (l : List ℚ) (x y : ℚ), y ∈ l → l.foldl min x ≤ y
  | z :: l, x, y, h => by
    rcases List.mem_cons.mp h with rfl | h
    · exact le_trans (foldl_min_le_init l (min x y)) (min_le_right x y)
    · exact foldl_min_le_mem l (min x z) y h

/-- `qmin` bounds every member from below. -/
theorem qmin_le_of_mem {l : List ℚ} {y : ℚ} (h : y ∈ l) : qmin l ≤ y := by
  cases l with
  | nil => simp at h
  | cons x xs =>
    rcases List.mem_cons.mp h with rfl | h
    · simpa [qmin] using foldl_min_le_init xs y
    · simpa [qmin] using foldl_min_le_mem xs x y h

/-- A `max` fold is bounded below by its initial value. -/
theorem le_foldl_max_init : ∀ (l : List ℚ) (x : ℚ), x ≤ l.foldl max x
  | [], x => le_refl x
  | y :: l, x => le_trans (le_max_left x y) (le_foldl_max_init l (max x y))

/-- A `max` fold is bounded below by every list element. -/
theorem le_foldl_max_mem : ∀ (l : List ℚ) (x y : ℚ), y ∈ l → y ≤ l.foldl max x
  | z :: l, x, y, h => by
    rcases List.mem_cons.mp h with rfl | h
    · exact le_trans (le_max_right x y) (le_foldl_max_init l (max x y))
    · exact le_foldl_max_mem l (max x z) y h

/-- `qmax` bounds every member from above. -/
theorem le_qmax_of_mem {l : List ℚ} {y : ℚ} (h : y ∈ l) : y ≤ qmax l := by
  cases l with
  | nil => simp at h
  | cons x xs =>
    rcases List.mem_cons.mp h with rfl | h
    · simpa [qmax] using le_foldl_max_init xs y
    · simpa [qmax] using le_foldl_max_mem xs x y h

/-- Neither filter stage reads the price column, so filtering commutes with
a price rescaling of the catalog. -/
theorem survivors_map_rescale (m : Mission) (cat : List MotorSpec) (a b t : ℚ) :
    survivors m (cat.map (rescale_price a b)) t
      = (survivors m cat t).map (rescale_price a b) := by
  have h1 : voltage_ok m ∘ rescale_price a b = voltage_ok m := funext fun _ => rfl
  have h2 : margin_ok t m ∘ rescale_price a b = margin_ok t m := funext fun _ => rfl
  simp [survivors, List.filter_map, h1, h2]

/-- The min-max normalization of line 105, with its `1e-9` guard, is
invariant under a positive-affine substitution provided the range is either
zero or at least `1e-9` both before and after scaling. -/
theorem price_score_invariant (a b p pmin pmax : ℚ) (ha : 0 < a)
    (hp : pmin ≤ p) (hp' : p ≤ pmax)
    (hr : pmax - pmin = 0 ∨
      ((1 : ℚ) / 1000000000 ≤ pmax - pmin ∧
        (1 : ℚ) / 1000000000 ≤ a * (pmax - pmin))) :
    (a * p + b - (a * pmin + b)) / max (a * pmax + b - (a * pmin + b)) (1 / 1000000000)
      = (p - pmin) / max (pmax - pmin) (1 / 1000000000) := by
  have hnum : a * p + b - (a * pmin + b) = a * (p - pmin) := by ring
  have hden : a * pmax + b - (a * pmin + b) = a * (pmax - pmin) := by ring
  rcases hr with h0 | ⟨h1, h2⟩
  · have hpp : p - pmin = 0 := by linarith
    rw [hnum, hden, hpp, h0, mul_zero]
  · rw [hnum, hden, max_eq_left h1, max_eq_left h2,
      mul_div_mul_left _ _ (ne_of_gt ha)]

/-- Rescaling the price column and its survivor min/max together leaves the
price score — and hence the whole composite score — of a survivor
unchanged, under the guard-compatibility hypothesis. -/
theorem mk_ranked_rescale_price (m : Mission) (a b minM maxM minP maxP : ℚ)
    (s : MotorSpec) (ha : 0 < a) (hp : minP ≤ s.price_usd) (hp' : s.price_usd ≤ maxP)
    (hr : maxP - minP = 0 ∨
      ((1 : ℚ) / 1000000000 ≤ maxP - minP ∧
        (1 : ℚ) / 1000000000 ≤ a * (maxP - minP))) :
    (mk_ranked m minM maxM (a * minP + b) (a * maxP + b)
        (rescale_price a b s)).price_score
      = (mk_ranked m minM maxM minP maxP s).price_score ∧
    (mk_ranked m minM maxM (a * minP + b) (a * maxP + b)
        (rescale_price a b s)).score
      = (mk_ranked m minM maxM minP maxP s).score := by
  have hps := price_score_invariant a b s.price_usd minP maxP ha hp hp' hr
  constructor
  · exact hps
  · simp only [mk_ranked, rescale_price, power_margin, current_margin]
    rw [hps]

/-- The score and price-score columns of the scored frame are invariant
under a positive-affine price rescaling, given the guard-compatibility
hypothesis on the surviving price range. -/
theorem scored_map_rescale (m : Mission) (cat : List MotorSpec) (a b : ℚ) (ha : 0 < a)
    (hr : price_range m cat = 0 ∨
      ((1 : ℚ) / 1000000000 ≤ price_range m cat ∧
        (1 : ℚ) / 1000000000 ≤ a * price_range m cat)) :
    (scored_candidates m (cat.map (rescale_price a b))).map RankedCandidate.price_score
        = (scored_candidates m cat).map RankedCandidate.price_score ∧
      (scored_candidates m (cat.map (rescale_price a b))).map RankedCandidate.score
        = (scored_candidates m cat).map RankedCandidate.score := by
  have hsurv := survivors_map_rescale m cat a b (6 / 5)
  have hmass : surv_masses m (cat.map (rescale_price a b)) = surv_masses m cat := by
    rw [surv_masses, hsurv, List.map_map, surv_masses]
    exact List.map_congr_left fun s _ => rfl
  have hprices : surv_prices m (cat.map (rescale_price a b))
      = (surv_prices m cat).map (fun p => a * p + b) := by
    rw [surv_prices, hsurv, List.map_map, surv_prices, List.map_map]
    exact List.map_congr_left fun s _ => rfl
  by_cases hs : survivors m cat (6 / 5) = []
  · have h2 : scored_candidates m cat = [] := by
      rw [scored_candidates, hs]; rfl
    have h1 : scored_candidates m (cat.map (rescale_price a b)) = [] := by
      rw [scored_candidates, hsurv, hs]; rfl
    simp [h1, h2]
  · have hne : surv_prices m cat ≠ [] := by
      simpa [surv_prices] using hs
    have hminp : qmin (surv_prices m (cat.map (rescale_price a b)))
        = a * qmin (surv_prices m cat) + b := by
      rw [hprices, qmin_map_affine a b ha.le _ hne]
    have hmaxp : qmax (surv_prices m (cat.map (rescale_price a b)))
        = a * qmax (surv_prices m cat) + b := by
      rw [hprices, qmax_map_affine a b ha.le _ hne]
    have key : ∀ s ∈ survivors m cat (6 / 5),
        (mk_ranked m (qmin (surv_masses m cat)) (qmax (surv_masses m cat))
            (a * qmin (surv_prices m cat) + b) (a * qmax (surv_prices m cat) + b)
            (rescale_price a b s)).price_score
          = (mk_ranked m (qmin (surv_masses m cat)) (qmax (surv_masses m cat))
              (qmin (surv_prices m cat)) (qmax (surv_prices m cat)) s).price_score ∧
        (mk_ranked m (qmin (surv_masses m cat)) (qmax (surv_masses m cat))
            (a * qmin (surv_prices m cat) + b) (a * qmax (surv_prices m cat) + b)
            (rescale_price a b s)).score
          = (mk_ranked m (qmin (surv_masses m cat)) (qmax (surv_masses m cat))
              (qmin (surv_prices m cat)) (qmax (surv_prices m cat)) s).score := by
      intro s hsm
      refine mk_ranked_rescale_price m a b _ _ _ _ s ha ?_ ?_ hr
      · exact qmin_le_of_mem (List.mem_map_of_mem MotorSpec.price_usd hsm)
      · exact le_qmax_of_mem (List.mem_map_of_mem MotorSpec.price_usd hsm)
    have heq : ∀ (f : RankedCandidate → ℚ),
        (∀ s ∈ survivors m cat (6 / 5),
          f (mk_ranked m (qmin (surv_masses m cat)) (qmax (surv_masses m cat))
              (a * qmin (surv_prices m cat) + b) (a * qmax (surv_prices m cat) + b)
              (rescale_price a b s))
            = f (mk_ranked m (qmin (surv_masses m cat)) (qmax (surv_masses m cat))
                (qmin (surv_prices m cat)) (qmax (surv_prices m cat)) s)) →
        (scored_candidates m (cat.map (rescale_price a b))).map f
          = (scored_candidates m cat).map f := by
      intro f hf
      simp only [scored_candidates, hsurv, hmass, hminp, hmaxp, List.map_map]
      exact List.map_congr_left fun s hsm => hf s hsm
    exact ⟨heq _ fun s h => (key s h).1, heq _ fun s h => (key s h).2⟩

/-- C9 counterexample: for the valid default mission and a valid catalog
whose two survivors have prices `0` and `2e-9`, rescaling prices by the
positive factor `1/10` (shift `0`) pushes the survivor price range below
the `1e-9` guard and changes a survivor's `priceScore` (from `1` to `1/5`),
contradicting the claim's unconditional invariance. -/
theorem C9_counterexample :
    valid_mission default_mission ∧
      (scored_candidates default_mission
          (tiny_price_catalog.map (rescale_price (1 / 10) 0))).map
          RankedCandidate.price_score
        ≠ (scored_candidates default_mission tiny_price_catalog).map
            RankedCandidate.price_score := by
  constructor
  · norm_num [valid_mission, default_mission]
  · norm_num [scored_candidates, survivors, surv_masses, surv_prices, qmin, qmax,
      mk_ranked, voltage_ok, margin_ok, power_margin, current_margin,
      peak_current_a_est, peak_power_w_est, hover_power_w_est,
      thrust_per_motor_gf_est, thrust_per_motor_n, total_thrust_n, G,
      effective_voltage, nominal_voltage_from_s, rescale_price,
      tiny_price_catalog, motor_price_zero, motor_price_tiny, motor_a,
      default_mission, List.filter, List.map]

/-- C9 (amended): min-max normalization of the price column is invariant
under `price ↦ a·price + b` with `a > 0` provided the survivor price range
is zero or stays at or above the `1e-9` guard both before and after
rescaling; then every survivor's `priceScore`, every `score`, and the
sorted output's score column are unchanged. -/
theorem C9_price_rescale_invariance (m : Mission) (cat : List MotorSpec) (a b : ℚ)
    (ha : 0 < a)
    (hr : price_range m cat = 0 ∨
      ((1 : ℚ) / 1000000000 ≤ price_range m cat ∧
        (1 : ℚ) / 1000000000 ≤ a * price_range m cat)) :
    (scored_candidates m (cat.map (rescale_price a b))).map RankedCandidate.price_score
        = (scored_candidates m cat).map RankedCandidate.price_score ∧
      (scored_candidates m (cat.map (rescale_price a b))).map RankedCandidate.score
        = (scored_candidates m cat).map RankedCandidate.score ∧
      ((recommend_motors m (cat.map (rescale_price a b))).toOption.getD []).map
          RankedCandidate.score
        = ((recommend_motors m cat).toOption.getD []).map RankedCandidate.score := by
  obtain ⟨h1, h2⟩ := scored_map_rescale m cat a b ha hr
  refine ⟨h1, h2, ?_⟩
  by_cases hn : m.n_motors = 0
  · simp [recommend_motors, hn, Except.toOption]
  · rw [recommend_motors_eq_ok hn, recommend_motors_eq_ok hn]
    simp only [Except.toOption, Option.getD]
    exact map_score_sort_congr _ _ h2

/-- Witness for C9 (amended): doubling and shifting an ordinary price
column (range `10`) leaves all scores unchanged. -/
theorem C9_price_rescale_invariance_witness :
    (scored_candidates default_mission
        (plain_price_catalog.map (rescale_price 2 5))).map RankedCandidate.price_score
      = (scored_candidates default_mission plain_price_catalog).map
          RankedCandidate.price_score ∧
    (scored_candidates default_mission
        (plain_price_catalog.map (rescale_price 2 5))).map RankedCandidate.score
      = (scored_candidates default_mission plain_price_catalog).map
          RankedCandidate.score ∧
    ((recommend_motors default_mission
        (plain_price_catalog.map (rescale_price 2 5))).toOption.getD []).map
        RankedCandidate.score
      = ((recommend_motors default_mission plain_price_catalog).toOption.getD []).map
          RankedCandidate.score :=
  C9_price_rescale_invariance default_mission plain_price_catalog 2 5 (by norm_num)
    (Or.inr (by
      constructor <;>
        norm_num [price_range, surv_prices, survivors, qmin, qmax, voltage_ok,
          margin_ok, power_margin, current_margin, peak_power_w_est,
          hover_power_w_est, thrust_per_motor_gf_est, thrust_per_motor_n,
          total_thrust_n, G, peak_current_a_est, effective_voltage,
          nominal_voltage_from_s, default_mission, plain_price_catalog,
          motor_price_ten, motor_price_twenty, motor_a, List.filter]))

/-- All replicated scores are pairwise equal. -/
theorem list_pairwise_eq_replicate (n : ℕ) (q : ℚ) :
    (List.replicate n q).Pairwise Eq := by
  induction n with
  | zero => exact List.Pairwise.nil
  | succ n ih =>
    rw [List.replicate_succ]
    exact List.Pairwise.cons (fun y hy => (List.eq_of_mem_replicate hy).symm) ih

/-- C2 evaluation at the stability-breaking input: for the default mission
and a catalog of seventeen identical motors, all seventeen candidates
survive and carry exactly the same `score`, so the final ordering is
decided purely by the sorting algorithm's tie behaviour.  (pandas
`sort_values` defaults to the unstable `quicksort` kind, whose introsort
partitioning reorders equal keys once the array exceeds the insertion-sort
cutoff of 16 elements, so the source does not preserve catalog order
here.) -/
theorem C2_seventeen_identical_scores :
    (scored_candidates default_mission tie_catalog).length = 17 ∧
      ((scored_candidates default_mission tie_catalog).map
        RankedCandidate.score).Pairwise Eq := by
  have hval : ∀ s ∈ tie_catalog,
      voltage_ok default_mission s = true ∧
        margin_ok (6 / 5) default_mission s = true := by
    intro s hs
    rw [tie_catalog, List.mem_replicate] at hs
    obtain ⟨-, rfl⟩ := hs
    constructor
    · norm_num [voltage_ok, effective_voltage, nominal_voltage_from_s,
        default_mission, motor_a]
    · norm_num [margin_ok, power_margin, current_margin, peak_power_w_est,
        hover_power_w_est, thrust_per_motor_gf_est, thrust_per_motor_n,
        total_thrust_n, G, peak_current_a_est, effective_voltage,
        nominal_voltage_from_s, default_mission, motor_a]
  have hsurv : survivors default_mission tie_catalog (6 / 5) = tie_catalog := by
    unfold survivors
    rw [List.filter_eq_self.mpr fun a ha => (hval a ha).1,
      List.filter_eq_self.mpr fun a ha => (hval a ha).2]
  have hscored : scored_candidates default_mission tie_catalog
      = List.replicate 17
          (mk_ranked default_mission
            (qmin (surv_masses default_mission tie_catalog))
            (qmax (surv_masses default_mission tie_catalog))
            (qmin (surv_prices default_mission tie_catalog))
            (qmax (surv_prices default_mission tie_catalog)) motor_a) := by
    rw [scored_candidates, hsurv, tie_catalog, List.map_replicate]
  rw [hscored, List.map_replicate]
  exact ⟨by simp, list_pairwise_eq_replicate 17 _⟩

end UAV
